import Mathlib

/-!
Shallow embedding of `clone_client_env/clone_env.py` (class `CloneEnv`).

Scalars carried in observation and action vectors are modelled as rationals
(the Python code only moves them around; the single arithmetic step,
`numpy.zeros(n) - 1`, is elementwise subtraction). Stateful methods are
explicit state transformers returning an outcome (normal return, raised
exception, or a block on a full queue / held lock), the successor state, and
a trace of externally visible events. Wall-clock time (`time.time()`) is an
input list of successive clock readings.
-/

namespace CloneEnvModel

/-- Scalar values carried in the vectors (Python floats used only as data). -/
abbrev Scalar := ℚ

/-- An action vector, as passed to `step` (`Iterable[float]`). -/
abbrev ActionVec := List Scalar

/-- An observation vector, as returned by `get_obs`. -/
abbrev ObsVec := List Scalar

/-- Wall-clock instants and durations (`time.time()` values and periods),
measured in milliseconds in this model. -/
abbrev Time := ℤ

/-- Python constant `FULL_LOOSE_TIME = 0.5` (seconds), i.e. 500 ms. -/
def FULL_LOOSE_TIME : Time := 500

/-- A worker process handle. Modelled from the spec: `CommWorker` and
`CtrlWorker` are separate modules of this repository, not under the sources
given; the spec says each "exposes start/terminate lifecycle operations
equivalent to a standard process handle" and "carries ... an optional
captured fault (error + diagnostic trace)" in an inspectable slot
(`exception`). The fault pair is `(err, trace)` as destructured in
`get_obs`/`step`. -/
structure Worker where
  terminated : Bool
  exception : Option (String × String)
deriving DecidableEq

/-- Modelled from the spec: terminating a process handle moves it to the
terminated lifecycle state regardless of its current state ("idempotent
no-op on already-terminated handles"). The fault slot is untouched. -/
def terminate (w : Worker) : Worker :=
  { w with terminated := true }

/-- Exceptions raised by the embedded methods: `CloneEnvError` either as the
"not initialized / please connect first" accessor fault, or as the worker
fault `CloneEnvError(trace) from err`. -/
inductive PyErr where
  | notConnected (msg : String)
  | envFault (trace : String) (cause : String)
deriving DecidableEq

/-- The accessor message of the `comm_worker` property. -/
def commMsg : String :=
  "Communication worker is not initialized. Please connect to the robot first."

/-- The accessor message of the `ctrl_worker` property. -/
def ctrlMsg : String :=
  "Control worker is not initialized. Please connect to the robot first."

/-- Which public method frame a raise escapes from (used to track where a
fault surfaces during composite calls such as `close`). -/
inductive RaiseSite where
  | inGetObs
  | inStep
  | inForceClose
deriving DecidableEq

/-- Externally visible events of one call: an enqueue on the command
channel, a worker termination, the stop-pressure-generation handshake, or a
lock-guarded read of the shared observation buffer. -/
inductive Ev where
  | put (a : ActionVec)
  | termComm
  | termCtrl
  | stopPressuregen
  | obsRead
deriving DecidableEq

/-- Result of one method call: normal return, a raised exception (tagged
with the method frame it escapes), or a block (a `Queue.put` on a full
queue with no consumer running in the modelled execution). -/
inductive Outcome (α : Type) where
  | ok (a : α)
  | raised (e : PyErr) (site : RaiseSite)
  | blocked
deriving DecidableEq

/-- The mutable state of a `CloneEnv` instance: `self.no_actions`, the
command channel `self._actions_queue` (a `mp.Queue(maxsize=1)`, modelled as
the list of unconsumed items), the shared buffers `self._current_obs` and
`self._current_actions` (None before `connect`), and the two worker
handles. -/
structure St where
  no_actions : Nat
  actions_queue : List ActionVec
  current_obs : Option ObsVec
  current_actions : Option ObsVec
  comm_worker : Option Worker
  ctrl_worker : Option Worker
deriving DecidableEq

/-- `CloneEnv.__init__`: `no_actions = 0`, empty capacity-1 queue, buffers
unset, worker handles unset. -/
def initState : St :=
  { no_actions := 0
    actions_queue := []
    current_obs := none
    current_actions := none
    comm_worker := none
    ctrl_worker := none }

/-- One interaction with the capacity-1 command channel: an enqueue by the
orchestrator or a dequeue by the control worker. -/
inductive QAct where
  | put (a : ActionVec)
  | take
deriving DecidableEq

/-- Semantics of `mp.Queue(maxsize=1)`: `put` completes only while fewer
than 1 item is unconsumed (otherwise the caller blocks, `none`); `take`
completes only on a nonempty queue and removes the oldest item. -/
def qnext (q : List ActionVec) : QAct → Option (List ActionVec)
  | QAct.put a => if q.length < 1 then some (q ++ [a]) else none
  | QAct.take =>
    match q with
    | [] => none
    | _ :: rest => some rest

/-- Run a sequence of queue interactions from a queue state; `none` when
some interaction blocks. -/
def qrun (q : List ActionVec) : List QAct → Option (List ActionVec)
  | [] => some q
  | act :: acts =>
    match qnext q act with
    | none => none
    | some q' => qrun q' acts

/-- `CloneEnv.force_close`: `self.comm_worker.terminate();
self.ctrl_worker.terminate()` — each through the raising property
accessor. -/
def force_close (s : St) : Outcome Unit × St × List Ev :=
  match s.comm_worker with
  | none => (Outcome.raised (PyErr.notConnected commMsg) RaiseSite.inForceClose, s, [])
  | some w =>
    let s1 := { s with comm_worker := some (terminate w) }
    match s1.ctrl_worker with
    | none => (Outcome.raised (PyErr.notConnected ctrlMsg) RaiseSite.inForceClose, s1, [Ev.termComm])
    | some v =>
      (Outcome.ok (), { s1 with ctrl_worker := some (terminate v) }, [Ev.termComm, Ev.termCtrl])

/-- `CloneEnv.get_obs`: accessor check (`self.comm_worker` raises if the
handle is unset), then the fault check — if `exception` is set,
`force_close()` and `raise CloneEnvError(trace) from err` — else a
lock-guarded copy of the shared observation buffer. -/
def get_obs (s : St) : Outcome ObsVec × St × List Ev :=
  match s.comm_worker with
  | none => (Outcome.raised (PyErr.notConnected commMsg) RaiseSite.inGetObs, s, [])
  | some w =>
    match w.exception with
    | some (err, trace) =>
      match force_close s with
      | (Outcome.ok _, s1, evs) => (Outcome.raised (PyErr.envFault trace err) RaiseSite.inGetObs, s1, evs)
      | (Outcome.raised e site, s1, evs) => (Outcome.raised e site, s1, evs)
      | (Outcome.blocked, s1, evs) => (Outcome.blocked, s1, evs)
    | none => (Outcome.ok (s.current_obs.getD []), s, [Ev.obsRead])

/-- `CloneEnv.step`: first `self._actions_queue.put(actions)` (blocks while
the capacity-1 queue is full), then the same accessor check, fault check,
`force_close()` and raise as `get_obs`. -/
def step (a : ActionVec) (s : St) : Outcome Unit × St × List Ev :=
  match qnext s.actions_queue (QAct.put a) with
  | none => (Outcome.blocked, s, [])
  | some q' =>
    let s1 := { s with actions_queue := q' }
    match s1.comm_worker with
    | none => (Outcome.raised (PyErr.notConnected commMsg) RaiseSite.inStep, s1, [Ev.put a])
    | some w =>
      match w.exception with
      | some (err, trace) =>
        match force_close s1 with
        | (Outcome.ok _, s2, evs) => (Outcome.raised (PyErr.envFault trace err) RaiseSite.inStep, s2, Ev.put a :: evs)
        | (Outcome.raised e site, s2, evs) => (Outcome.raised e site, s2, Ev.put a :: evs)
        | (Outcome.blocked, s2, evs) => (Outcome.blocked, s2, Ev.put a :: evs)
      | none => (Outcome.ok (), s1, [Ev.put a])

/-- `CloneEnv.connect`: the external handshake yields the muscle count `n`
(`client.number_of_muscles`); then
`self._current_obs = mp.Manager().list([0.0] * self.no_actions)` and the
same for `_current_actions`, and both workers are constructed and started
with fresh handles. The queue, created in `__init__`, is untouched. -/
def connect (n : Nat) (s : St) : St :=
  { s with
    no_actions := n
    current_obs := some (List.replicate n 0)
    current_actions := some (List.replicate n 0)
    comm_worker := some { terminated := false, exception := none }
    ctrl_worker := some { terminated := false, exception := none } }

/-- `numpy.zeros(self.no_actions) - 1` in `loose_all`: the length-`n`
vector of `0 - 1` entries. -/
def all_loose (n : Nat) : ActionVec :=
  List.replicate n (0 - 1)

/-- Loop of `CloneEnv.keep_step` under a nominal consumer: `start` is the
first `time.time()` reading and the list holds the subsequent readings, one
per loop test (`while time.time() - start < period`). The control worker is
assumed to drain each enqueued action promptly, so every `put` inside
`step(actions)` completes; the result is the list of action vectors sent
and the clock reading observed at loop exit. `none` models a run whose
clock trace ends before the loop exits. -/
def keep_step_sends_go (a : ActionVec) (period start : Time) :
    List Time → Option (List ActionVec × Time)
  | [] => none
  | t :: ts =>
    if t - start < period then
      match keep_step_sends_go a period start ts with
      | none => none
      | some (vs, tf) => some (a :: vs, tf)
    else
      some ([], t)

/-- `CloneEnv.keep_step(actions, period)` under a nominal consumer: the
head of the trace is `start = time.time()`, the tail feeds the loop
tests. -/
def keep_step_sends (a : ActionVec) (period : Time) :
    List Time → Option (List ActionVec × Time)
  | [] => none
  | start :: ts => keep_step_sends_go a period start ts

/-- `CloneEnv.loose_all(period)`: builds `numpy.zeros(self.no_actions) - 1`
and calls `keep_step` with it over the given period. -/
def loose_all_sends (n : Nat) (period : Time) (ts : List Time) :
    Option (List ActionVec × Time) :=
  keep_step_sends (all_loose n) period ts

/-- `CloneEnv.reset(actions, period)`, restricted to what it sends on the
command channel (the trailing `self.get_obs()` enqueues nothing): with
`actions is None` the source calls `self.loose_all()` with NO argument, so
the loop runs over the default `FULL_LOOSE_TIME`, not over `period`;
otherwise it calls `self.keep_step(actions, period)`. -/
def reset_sends (n : Nat) (acts : Option ActionVec) (period : Time)
    (ts : List Time) : Option (List ActionVec × Time) :=
  match acts with
  | none => loose_all_sends n FULL_LOOSE_TIME ts
  | some a => keep_step_sends a period ts

/-- Loop of `CloneEnv.keep_step` threading the orchestrator state: each
iteration whose clock test passes runs `step a` on the current state; a
raise or a block inside `step` escapes the loop. No consumer runs between
iterations in this modelled execution. -/
def keep_step_st_go (a : ActionVec) (period start : Time) (s : St) :
    List Time → Option (Outcome Unit × St × List Ev)
  | [] => none
  | t :: ts =>
    if t - start < period then
      match step a s with
      | (Outcome.ok _, s1, evs) =>
        match keep_step_st_go a period start s1 ts with
        | none => none
        | some (r, s2, evs2) => some (r, s2, evs ++ evs2)
      | (Outcome.raised e site, s1, evs) => some (Outcome.raised e site, s1, evs)
      | (Outcome.blocked, s1, evs) => some (Outcome.blocked, s1, evs)
    else
      some (Outcome.ok (), s, [])

/-- `CloneEnv.keep_step(actions, period)` threading the orchestrator
state. -/
def keep_step_st (a : ActionVec) (period : Time) (s : St) :
    List Time → Option (Outcome Unit × St × List Ev)
  | [] => none
  | start :: ts => keep_step_st_go a period start s ts

/-- `CloneEnv.reset(actions, period)` threading the orchestrator state:
`self.loose_all()` (with the default period) when `actions is None`, else
`self.keep_step(actions, period)`; on normal return of that phase, a final
`self.get_obs()` whose raise escapes `reset`. -/
def reset_st (acts : Option ActionVec) (period : Time) (ts : List Time)
    (s : St) : Option (Outcome Unit × St × List Ev) :=
  match
    (match acts with
     | none => keep_step_st (all_loose s.no_actions) FULL_LOOSE_TIME s ts
     | some a => keep_step_st a period s ts)
  with
  | none => none
  | some (Outcome.ok _, s1, evs) =>
    match get_obs s1 with
    | (Outcome.ok _, s2, evs2) => some (Outcome.ok (), s2, evs ++ evs2)
    | (Outcome.raised e site, s2, evs2) => some (Outcome.raised e site, s2, evs ++ evs2)
    | (Outcome.blocked, s2, evs2) => some (Outcome.blocked, s2, evs ++ evs2)
  | some (Outcome.raised e site, s1, evs) => some (Outcome.raised e site, s1, evs)
  | some (Outcome.blocked, s1, evs) => some (Outcome.blocked, s1, evs)

/-- `CloneEnv.close`: `self.reset()` (both arguments defaulted), then the
external stop-pressure-generation handshake, then `self.force_close()`. An
exception escaping `reset` propagates before the handshake is reached. -/
def close_st (ts : List Time) (s : St) : Option (Outcome Unit × St × List Ev) :=
  match reset_st none FULL_LOOSE_TIME ts s with
  | none => none
  | some (Outcome.ok _, s1, evs) =>
    match force_close s1 with
    | (Outcome.ok _, s2, evs2) =>
      some (Outcome.ok (), s2, evs ++ [Ev.stopPressuregen] ++ evs2)
    | (Outcome.raised e site, s2, evs2) =>
      some (Outcome.raised e site, s2, evs ++ [Ev.stopPressuregen] ++ evs2)
    | (Outcome.blocked, s2, evs2) =>
      some (Outcome.blocked, s2, evs ++ [Ev.stopPressuregen] ++ evs2)
  | some (Outcome.raised e site, s1, evs) => some (Outcome.raised e site, s1, evs)
  | some (Outcome.blocked, s1, evs) => some (Outcome.blocked, s1, evs)

/-- The comm worker writes a freshly polled observation vector into the
shared buffer (under the lock). Modelled from the spec: the comm worker
"polls the hardware client for current per-muscle contraction readings and
writes the resulting ObservationVector into the shared buffer while holding
the lock"; the per-muscle poll yields one reading per muscle, an assumption
carried as a length hypothesis where this is used. -/
def obs_write (obs : ObsVec) (s : St) : St :=
  { s with current_obs := some obs }

/-- A worker captures a failure `(err, trace)` into its fault slot.
Modelled from the spec: on any unrecoverable failure a worker "captures the
failure (cause + diagnostic trace) into its fault slot". -/
def set_comm_fault (err trace : String) (s : St) : St :=
  match s.comm_worker with
  | some w => { s with comm_worker := some { w with exception := some (err, trace) } }
  | none => s

/-- Same fault capture for the control worker. -/
def set_ctrl_fault (err trace : String) (s : St) : St :=
  match s.ctrl_worker with
  | some v => { s with ctrl_worker := some { v with exception := some (err, trace) } }
  | none => s

/-- One step of the whole system after `connect`: a comm-worker buffer
write (of a per-muscle vector), a control-worker dequeue, a fault capture
by either worker, or one orchestrator call (`get_obs`, `step`,
`force_close`), each leaving the state its successor. -/
inductive EnvStep : St → St → Prop where
  | comm_write (s : St) (obs : ObsVec) (h : obs.length = s.no_actions) :
      EnvStep s (obs_write obs s)
  | ctrl_take (s : St) (x : ActionVec) (rest : List ActionVec)
      (h : s.actions_queue = x :: rest) :
      EnvStep s { s with actions_queue := rest }
  | comm_fault (s : St) (err trace : String) :
      EnvStep s (set_comm_fault err trace s)
  | ctrl_fault (s : St) (err trace : String) :
      EnvStep s (set_ctrl_fault err trace s)
  | orch_get (s : St) : EnvStep s (get_obs s).2.1
  | orch_step (s : St) (a : ActionVec) : EnvStep s (step a s).2.1
  | orch_close (s : St) : EnvStep s (force_close s).2.1

/-- Both worker handles exist and are terminated. -/
def bothTerminated (s : St) : Bool :=
  (match s.comm_worker with
   | some w => w.terminated
   | none => false)
  &&
  (match s.ctrl_worker with
   | some v => v.terminated
   | none => false)

/-- The connection invariant traced through executions: the muscle count is
the one established at connect time and the shared observation buffer holds
a vector of exactly that length. -/
def ObsInv (n : Nat) (s : St) : Prop :=
  s.no_actions = n ∧ ∃ v, s.current_obs = some v ∧ v.length = n

/-- A connected three-muscle environment whose comm worker has captured a
fault. -/
def commFaultSt : St :=
  { connect 3 initState with
    comm_worker := some { terminated := false, exception := some ("IOError", "tb") } }

/-- A connected three-muscle environment whose control worker (only) has
captured a fault. -/
def ctrlFaultSt : St :=
  { connect 3 initState with
    ctrl_worker := some { terminated := false, exception := some ("RuntimeError", "tb") } }

theorem force_close_preserves (s : St) :
    (force_close s).2.1.no_actions = s.no_actions ∧
    (force_close s).2.1.current_obs = s.current_obs ∧
    (force_close s).2.1.actions_queue = s.actions_queue := by
  obtain ⟨na, q, co, ca, cw, tw⟩ := s
  rcases cw with _ | w
  · exact ⟨rfl, rfl, rfl⟩
  · rcases tw with _ | v
    · exact ⟨rfl, rfl, rfl⟩
    · exact ⟨rfl, rfl, rfl⟩

theorem get_obs_preserves (s : St) :
    (get_obs s).2.1.no_actions = s.no_actions ∧
    (get_obs s).2.1.current_obs = s.current_obs ∧
    (get_obs s).2.1.actions_queue = s.actions_queue := by
  obtain ⟨na, q, co, ca, cw, tw⟩ := s
  rcases cw with _ | w
  · exact ⟨rfl, rfl, rfl⟩
  · rcases w with ⟨wt, we⟩
    rcases we with _ | ⟨e, t⟩
    · exact ⟨rfl, rfl, rfl⟩
    · rcases tw with _ | v
      · exact ⟨rfl, rfl, rfl⟩
      · exact ⟨rfl, rfl, rfl⟩

theorem step_preserves (a : ActionVec) (s : St) :
    (step a s).2.1.no_actions = s.no_actions ∧
    (step a s).2.1.current_obs = s.current_obs := by
  obtain ⟨na, q, co, ca, cw, tw⟩ := s
  by_cases hq : q.length < 1
  · rcases cw with _ | w
    · simp [step, qnext, hq]
    · rcases w with ⟨wt, we⟩
      rcases we with _ | ⟨e, t⟩
      · simp [step, qnext, hq]
      · rcases tw with _ | v <;> simp [step, qnext, hq, force_close, terminate]
  · simp [step, qnext, hq]

theorem envStep_obsInv {n : Nat} {s s' : St} (h : EnvStep s s') (hi : ObsInv n s) :
    ObsInv n s' := by
  obtain ⟨hna, v, hv, hlen⟩ := hi
  cases h with
  | comm_write obs hlen2 =>
    exact ⟨hna, obs, rfl, by rw [hlen2, hna]⟩
  | ctrl_take x rest hq =>
    exact ⟨hna, v, hv, hlen⟩
  | comm_fault e t =>
    rcases hcw : s.comm_worker with _ | w <;> simp only [set_comm_fault, hcw] <;>
      exact ⟨hna, v, hv, hlen⟩
  | ctrl_fault e t =>
    rcases hcw : s.ctrl_worker with _ | w <;> simp only [set_ctrl_fault, hcw] <;>
      exact ⟨hna, v, hv, hlen⟩
  | orch_get =>
    obtain ⟨h1, h2, _⟩ := get_obs_preserves s
    exact ⟨by rw [h1, hna], v, by rw [h2, hv], hlen⟩
  | orch_step a =>
    obtain ⟨h1, h2⟩ := step_preserves a s
    exact ⟨by rw [h1, hna], v, by rw [h2, hv], hlen⟩
  | orch_close =>
    obtain ⟨h1, h2, _⟩ := force_close_preserves s
    exact ⟨by rw [h1, hna], v, by rw [h2, hv], hlen⟩

theorem reach_obsInv {n : Nat} {s s' : St}
    (h : Relation.ReflTransGen EnvStep s s') (hi : ObsInv n s) : ObsInv n s' := by
  induction h with
  | refl => exact hi
  | tail h1 h2 ih => exact envStep_obsInv h2 ih

theorem get_obs_ok_length {n : Nat} {s : St} (hi : ObsInv n s) :
    ∀ v, (get_obs s).1 = Outcome.ok v → v.length = n := by
  intro v h
  obtain ⟨hna, u, hu, hlen⟩ := hi
  obtain ⟨na, q, co, ca, cw, tw⟩ := s
  dsimp at hu
  subst hu
  rcases cw with _ | w
  · exact absurd h (by simp [get_obs])
  · rcases w with ⟨wt, we⟩
    rcases we with _ | ⟨e, t⟩
    · simp [get_obs] at h
      rw [← h]
      exact hlen
    · rcases tw with _ | vv <;> simp [get_obs, force_close] at h

/-- C2: a successful `connect()` with muscle count `n` allocates the shared
observation buffer as the all-zero vector of length `n`; the first
`get_obs()` after connect returns that all-zero vector; and along any
system execution from the connected state every value `get_obs()` returns
has length `n`. -/
theorem c2_connect_obs (n : Nat) (s' : St)
    (h : Relation.ReflTransGen EnvStep (connect n initState) s') :
    (connect n initState).current_obs = some (List.replicate n 0) ∧
    (get_obs (connect n initState)).1 = Outcome.ok (List.replicate n 0) ∧
    (∀ v, (get_obs s').1 = Outcome.ok v → v.length = n) := by
  refine ⟨rfl, rfl, ?_⟩
  have hinv : ObsInv n (connect n initState) :=
    ⟨rfl, List.replicate n 0, rfl, List.length_replicate n 0⟩
  exact get_obs_ok_length (reach_obsInv h hinv)

/-- Witness for C2 at muscle count 3 and the empty execution. -/
theorem c2_connect_obs_witness :
    (connect 3 initState).current_obs = some (List.replicate 3 0) ∧
    (get_obs (connect 3 initState)).1 = Outcome.ok (List.replicate 3 0) :=
  ⟨(c2_connect_obs 3 (connect 3 initState) Relation.ReflTransGen.refl).1,
   (c2_connect_obs 3 (connect 3 initState) Relation.ReflTransGen.refl).2.1⟩

/-- C3 counterexample: on the fresh (never connected) environment,
`step` does raise the Not-Connected fault, but only after enqueuing the
actions on the command channel — the state is mutated, refuting the
"no side effects, nothing is enqueued" part of the claim. -/
theorem c3_cex :
    (step (all_loose 3) initState).1 =
      Outcome.raised (PyErr.notConnected commMsg) RaiseSite.inStep ∧
    (step (all_loose 3) initState).2.1.actions_queue = [all_loose 3] ∧
    (step (all_loose 3) initState).2.1 ≠ initState := by
  refine ⟨rfl, rfl, fun h => ?_⟩
  have : (step (all_loose 3) initState).2.1.actions_queue = initState.actions_queue := by
    rw [h]
  simp [step, qnext, initState] at this

/-- C3 (amended): before `connect()` (worker handle unset, command channel
empty), `get_obs()` raises the Not-Connected fault with the state unchanged
and no events; `step(a)` raises the same fault, but only after enqueuing
`a` on the command channel, which is its one side effect. -/
theorem c3_not_connected (s : St) (a : ActionVec)
    (hc : s.comm_worker = none) (hq : s.actions_queue = []) :
    ((get_obs s).1 = Outcome.raised (PyErr.notConnected commMsg) RaiseSite.inGetObs ∧
      (get_obs s).2.1 = s ∧ (get_obs s).2.2 = []) ∧
    ((step a s).1 = Outcome.raised (PyErr.notConnected commMsg) RaiseSite.inStep ∧
      (step a s).2.1 = { s with actions_queue := [a] } ∧
      (step a s).2.2 = [Ev.put a]) := by
  obtain ⟨na, q, co, ca, cw, tw⟩ := s
  dsimp at hc hq
  subst hc
  subst hq
  exact ⟨⟨rfl, rfl, rfl⟩, ⟨rfl, rfl, rfl⟩⟩

/-- Witness for C3 on the initial state. -/
theorem c3_not_connected_witness :
    (get_obs initState).1 =
      Outcome.raised (PyErr.notConnected commMsg) RaiseSite.inGetObs ∧
    (step (all_loose 2) initState).2.1 =
      { initState with actions_queue := [all_loose 2] } :=
  ⟨(c3_not_connected initState (all_loose 2) rfl rfl).1.1,
   (c3_not_connected initState (all_loose 2) rfl rfl).2.2.1⟩

/-- C8 counterexample: on a freshly connected three-muscle environment,
`step` accepts and forwards a length-5 actions vector unchanged — no
length validation against the muscle count happens anywhere in `step`. -/
theorem c8_cex :
    (step [1, 1, 1, 1, 1] (connect 3 initState)).1 = Outcome.ok () ∧
    (step [1, 1, 1, 1, 1] (connect 3 initState)).2.1.actions_queue =
      [[1, 1, 1, 1, 1]] ∧
    ([1, 1, 1, 1, 1] : ActionVec).length ≠ (connect 3 initState).no_actions := by
  exact ⟨rfl, rfl, by decide⟩

/-- C8 (amended): the shared observation buffer keeps length `n` in every
state reachable from `connect`, and the library-built de-actuation vector
has length `n`; but `step` performs no length validation: on a healthy
connected state with room in the channel it accepts ANY actions vector and
forwards it verbatim. -/
theorem c8_no_length_validation (n : Nat) (s : St) (a : ActionVec) (w : Worker)
    (hr : Relation.ReflTransGen EnvStep (connect n initState) s)
    (hq : s.actions_queue = []) (hw : s.comm_worker = some w)
    (he : w.exception = none) :
    ((step a s).1 = Outcome.ok () ∧ (step a s).2.1.actions_queue = [a]) ∧
    (∃ v, s.current_obs = some v ∧ v.length = n) ∧
    (all_loose n).length = n := by
  refine ⟨?_, ?_, by simp [all_loose]⟩
  · obtain ⟨na, q, co, ca, cw, tw⟩ := s
    dsimp at hq hw
    subst hq
    subst hw
    obtain ⟨wt, we⟩ := w
    dsimp at he
    subst he
    exact ⟨rfl, rfl⟩
  · have hinv : ObsInv n (connect n initState) :=
      ⟨rfl, List.replicate n 0, rfl, List.length_replicate n 0⟩
    exact (reach_obsInv hr hinv).2

/-- Witness for C8: a length-2 vector is forwarded on a three-muscle
environment. -/
theorem c8_no_length_validation_witness :
    (step [5, 5] (connect 3 initState)).1 = Outcome.ok () ∧
    (step [5, 5] (connect 3 initState)).2.1.actions_queue = [[5, 5]] :=
  ⟨(c8_no_length_validation 3 (connect 3 initState) [5, 5]
      { terminated := false, exception := none }
      Relation.ReflTransGen.refl rfl rfl rfl).1.1,
   (c8_no_length_validation 3 (connect 3 initState) [5, 5]
      { terminated := false, exception := none }
      Relation.ReflTransGen.refl rfl rfl rfl).1.2⟩

/-- C1 counterexample: on a connected environment whose CONTROL worker has
its fault slot set (comm worker healthy), the next `get_obs()` returns
normally, the next `step()` returns normally, and neither worker is
terminated — the control worker's fault slot is never inspected by
`get_obs`/`step`, refuting the "comm worker or control worker" claim. -/
theorem c1_cex :
    (get_obs ctrlFaultSt).1 = Outcome.ok (List.replicate 3 0) ∧
    bothTerminated (get_obs ctrlFaultSt).2.1 = false ∧
    (step (all_loose 3) ctrlFaultSt).1 = Outcome.ok () ∧
    (step (all_loose 3) ctrlFaultSt).2.1.ctrl_worker =
      some { terminated := false, exception := some ("RuntimeError", "tb") } :=
  ⟨rfl, rfl, rfl, rfl⟩

/-- C1 (amended): only the COMM worker's fault slot is inspected. If it is
set on a connected environment (and, for `step`, the command channel has
room so the initial enqueue completes), the next `get_obs()` or `step()`
raises the fault error wrapping the captured cause and its diagnostic
trace, and after that call both worker processes are terminated. -/
theorem c1_comm_fault (s : St) (w v : Worker) (e t : String) (a : ActionVec)
    (hw : s.comm_worker = some w) (he : w.exception = some (e, t))
    (hv : s.ctrl_worker = some v) (hq : s.actions_queue = []) :
    ((get_obs s).1 = Outcome.raised (PyErr.envFault t e) RaiseSite.inGetObs ∧
      bothTerminated (get_obs s).2.1 = true) ∧
    ((step a s).1 = Outcome.raised (PyErr.envFault t e) RaiseSite.inStep ∧
      bothTerminated (step a s).2.1 = true) := by
  obtain ⟨na, q, co, ca, cw, tw⟩ := s
  dsimp at hw hv hq
  subst hw
  subst hv
  subst hq
  obtain ⟨wt, we⟩ := w
  dsimp at he
  subst he
  exact ⟨⟨rfl, rfl⟩, ⟨rfl, rfl⟩⟩

/-- Witness for C1 on a concrete comm-faulted state. -/
theorem c1_comm_fault_witness :
    (get_obs commFaultSt).1 =
      Outcome.raised (PyErr.envFault "tb" "IOError") RaiseSite.inGetObs ∧
    bothTerminated (get_obs commFaultSt).2.1 = true :=
  ⟨(c1_comm_fault commFaultSt
      { terminated := false, exception := some ("IOError", "tb") }
      { terminated := false, exception := none }
      "IOError" "tb" (all_loose 3) rfl rfl rfl rfl).1.1,
   (c1_comm_fault commFaultSt
      { terminated := false, exception := some ("IOError", "tb") }
      { terminated := false, exception := none }
      "IOError" "tb" (all_loose 3) rfl rfl rfl rfl).1.2⟩

theorem qnext_len_le {q q' : List ActionVec} {act : QAct}
    (h : qnext q act = some q') (hq : q.length ≤ 1) : q'.length ≤ 1 := by
  cases act with
  | put a =>
    simp only [qnext] at h
    by_cases hlt : q.length < 1
    · rw [if_pos hlt] at h
      cases h
      simp only [List.length_append, List.length_cons, List.length_nil]
      omega
    · rw [if_neg hlt] at h
      cases h
  | take =>
    cases q with
    | nil => simp [qnext] at h
    | cons x rest =>
      simp only [qnext] at h
      cases h
      simp only [List.length_cons] at hq
      omega

theorem qrun_len_le (acts : List QAct) :
    ∀ (q q' : List ActionVec), q.length ≤ 1 → qrun q acts = some q' →
      q'.length ≤ 1 := by
  induction acts with
  | nil =>
    intro q q' hq h
    simp only [qrun] at h
    cases h
    exact hq
  | cons act rest ih =>
    intro q q' hq h
    simp only [qrun] at h
    rcases hn : qnext q act with _ | q1
    · rw [hn] at h
      cases h
    · rw [hn] at h
      exact ih q1 q' (qnext_len_le hn hq) h

theorem qnext_full {q : List ActionVec} (b : ActionVec) (h : 1 ≤ q.length) :
    qnext q (QAct.put b) = none := by
  simp only [qnext]
  rw [if_neg]
  omega

/-- C4: the command channel has capacity exactly one — every queue state
reachable from empty holds at most one unconsumed action vector; a `put`
against a full channel cannot complete (so `step` blocks) while no `take`
by the control worker intervenes, and completes again right after one. -/
theorem c4_capacity_one :
    (∀ (acts : List QAct) (q' : List ActionVec),
      qrun [] acts = some q' → q'.length ≤ 1) ∧
    (∀ (q : List ActionVec) (b : ActionVec), 1 ≤ q.length →
      qnext q (QAct.put b) = none) ∧
    (∀ (a : ActionVec) (acts : List QAct) (q' : List ActionVec),
      (∀ x ∈ acts, x ≠ QAct.take) → qrun [a] acts = some q' →
        ∀ b, QAct.put b ∉ acts) ∧
    (∀ (a b : ActionVec), qrun [a] [QAct.take, QAct.put b] = some [b]) ∧
    (∀ (s : St) (a : ActionVec), 1 ≤ s.actions_queue.length →
      (step a s).1 = Outcome.blocked) := by
  refine ⟨fun acts q' h => qrun_len_le acts [] q' (by simp) h,
    fun q b h => qnext_full b h, ?_, fun a b => rfl, ?_⟩
  · intro a acts q' hno h b hmem
    cases acts with
    | nil => cases hmem
    | cons act rest =>
      have hact := hno act (List.mem_cons_self act rest)
      cases act with
      | take => exact hact rfl
      | put c =>
        simp only [qrun] at h
        rw [qnext_full c (by simp)] at h
        cases h
  · intro s a h
    simp [step, qnext_full a h]

/-- Witness for C4 on one-element runs and a full-channel `step`. -/
theorem c4_capacity_one_witness :
    ([[(1 : Scalar)]] : List ActionVec).length ≤ 1 ∧
    qnext [[(1 : Scalar)]] (QAct.put [2]) = none ∧
    (step (all_loose 3)
      { connect 3 initState with actions_queue := [[0]] }).1 =
        Outcome.blocked :=
  ⟨c4_capacity_one.1 [QAct.put [1]] [[1]] rfl,
   c4_capacity_one.2.1 [[1]] [2] (by simp),
   c4_capacity_one.2.2.2.2
     { connect 3 initState with actions_queue := [[0]] } (all_loose 3)
     (by simp)⟩

/-- C9: on a connected environment `force_close()` does not raise, running
it twice gives the same state as running it once, and terminating an
already-terminated handle is a no-op — including after a fault-triggered
teardown, since both handles remain present. -/
theorem c9_force_close_idem (s : St) (w v : Worker)
    (hw : s.comm_worker = some w) (hv : s.ctrl_worker = some v) :
    (force_close s).1 = Outcome.ok () ∧
    (force_close (force_close s).2.1).1 = Outcome.ok () ∧
    (force_close (force_close s).2.1).2.1 = (force_close s).2.1 ∧
    (∀ u : Worker, terminate (terminate u) = terminate u) := by
  obtain ⟨na, q, co, ca, cw, tw⟩ := s
  dsimp at hw hv
  subst hw
  subst hv
  exact ⟨rfl, rfl, rfl, fun u => rfl⟩

/-- Witness for C9 on the state left by a fault-triggered teardown. -/
theorem c9_force_close_idem_witness :
    (force_close (get_obs commFaultSt).2.1).1 = Outcome.ok () ∧
    (force_close (force_close (get_obs commFaultSt).2.1).2.1).2.1 =
      (force_close (get_obs commFaultSt).2.1).2.1 :=
  ⟨(c9_force_close_idem ((get_obs commFaultSt).2.1)
      { terminated := true, exception := some ("IOError", "tb") }
      { terminated := true, exception := none } rfl rfl).1,
   (c9_force_close_idem ((get_obs commFaultSt).2.1)
      { terminated := true, exception := some ("IOError", "tb") }
      { terminated := true, exception := none } rfl rfl).2.2.1⟩

theorem keep_step_go_exit (a : ActionVec) (period start : Time) :
    ∀ (ts : List Time) (vs : List ActionVec) (tf : Time),
      keep_step_sends_go a period start ts = some (vs, tf) →
      period ≤ tf - start ∧ (∀ v ∈ vs, v = a) := by
  intro ts
  induction ts with
  | nil =>
    intro vs tf h
    simp [keep_step_sends_go] at h
  | cons t ts ih =>
    intro vs tf h
    simp only [keep_step_sends_go] at h
    by_cases hlt : t - start < period
    · rw [if_pos hlt] at h
      rcases hgo : keep_step_sends_go a period start ts with _ | ⟨vs1, tf1⟩
      · rw [hgo] at h
        cases h
      · obtain ⟨h1, h2⟩ := ih vs1 tf1 hgo
        simp only [hgo, Option.some.injEq, Prod.mk.injEq] at h
        obtain ⟨hvs, htf⟩ := h
        subst hvs
        subst htf
        refine ⟨h1, ?_⟩
        intro v hv
        rcases List.mem_cons.mp hv with hv | hv
        · exact hv
        · exact h2 v hv
    · rw [if_neg hlt] at h
      cases h
      refine ⟨not_lt.mp hlt, ?_⟩
      intro v hv
      simp at hv

theorem keep_step_go_first_send (a : ActionVec) (period start t : Time)
    (ts : List Time) (vs : List ActionVec) (tf : Time)
    (hlt : t - start < period)
    (h : keep_step_sends_go a period start (t :: ts) = some (vs, tf)) :
    1 ≤ vs.length := by
  simp only [keep_step_sends_go, if_pos hlt] at h
  rcases hgo : keep_step_sends_go a period start ts with _ | ⟨vs1, tf1⟩
  · rw [hgo] at h
    cases h
  · simp only [hgo, Option.some.injEq, Prod.mk.injEq] at h
    obtain ⟨hvs, htf⟩ := h
    subst hvs
    simp

/-- C6 counterexample: `keep_step` with period 0 issues NO `step` call at
all — the very first loop test already fails (clock readings 0, 0), so the
"issues at least one step call" part of the claim is false. -/
theorem c6_cex :
    keep_step_sends (all_loose 1) 0 [0, 0] = some ([], 0) ∧
    ([] : List ActionVec).length = 0 :=
  ⟨rfl, rfl⟩

/-- C6 (amended): whenever `keep_step(actions, period)` returns, the clock
reading observed at its final loop test satisfies elapsed ≥ `period`; every
vector it sends is exactly `actions`; and it issues at least one `step`
call whenever the first loop test still falls within the period (with
period 0 or an immediately elapsed clock it issues none). -/
theorem c6_keep_step (a : ActionVec) (period start tf : Time) (ts : List Time)
    (vs : List ActionVec)
    (h : keep_step_sends a period (start :: ts) = some (vs, tf)) :
    period ≤ tf - start ∧
    (∀ v ∈ vs, v = a) ∧
    (∀ t ts', ts = t :: ts' → t - start < period → 1 ≤ vs.length) := by
  have hgo : keep_step_sends_go a period start ts = some (vs, tf) := h
  obtain ⟨h1, h2⟩ := keep_step_go_exit a period start ts vs tf hgo
  refine ⟨h1, h2, ?_⟩
  intro t ts' hts hlt
  subst hts
  exact keep_step_go_first_send a period start t ts' vs tf hlt hgo

/-- Witness for C6 on a trace whose first test is inside a 500 ms period. -/
theorem c6_keep_step_witness :
    FULL_LOOSE_TIME ≤ 600 - 0 ∧ 1 ≤ ([all_loose 2] : List ActionVec).length :=
  ⟨(c6_keep_step (all_loose 2) FULL_LOOSE_TIME 0 600 [0, 600]
      [all_loose 2] rfl).1,
   (c6_keep_step (all_loose 2) FULL_LOOSE_TIME 0 600 [0, 600]
      [all_loose 2] rfl).2.2 0 [600] rfl (by decide)⟩

/-- C7: on an environment whose muscle count is the `n` established by
`connect`, every vector `loose_all(period)` sends (via `keep_step`, hence
via `step`) has length `n` and every element equal to `-1`. -/
theorem c7_loose_all (n : Nat) (period tf : Time) (ts : List Time)
    (vs : List ActionVec)
    (h : loose_all_sends n period ts = some (vs, tf)) :
    (connect n initState).no_actions = n ∧
    ∀ v ∈ vs, v.length = n ∧ ∀ x ∈ v, x = -1 := by
  refine ⟨rfl, ?_⟩
  intro v hv
  cases ts with
  | nil => simp [loose_all_sends, keep_step_sends] at h
  | cons start rest =>
    have hgo : keep_step_sends_go (all_loose n) period start rest = some (vs, tf) := h
    have hv2 := (keep_step_go_exit (all_loose n) period start rest vs tf hgo).2 v hv
    subst hv2
    refine ⟨List.length_replicate n _, ?_⟩
    intro x hx
    have hx' : x = (0 : Scalar) - 1 := List.eq_of_mem_replicate hx
    rw [hx', zero_sub]

/-- Witness for C7 at muscle count 2 over one send. -/
theorem c7_loose_all_witness :
    (connect 2 initState).no_actions = 2 ∧ (all_loose 2).length = 2 :=
  ⟨(c7_loose_all 2 FULL_LOOSE_TIME 600 [0, 0, 600] [all_loose 2] rfl).1,
   ((c7_loose_all 2 FULL_LOOSE_TIME 600 [0, 0, 600] [all_loose 2] rfl).2
      (all_loose 2) (List.mem_singleton_self _)).1⟩

/-- C5 (code bug): `reset(actions=None, period)` ignores `period` — the
source body runs `self.loose_all()` with no argument, i.e. over the default
500 ms, contradicting the claim (and `reset`'s own docstring, "It blocks
the execution on `period` seconds"). With clock readings 0, 600, 2500 ms
and `period` = 2000 ms, `reset(None, 2000)` sends nothing and its loop
exits at reading 600, while `loose_all(2000)` sends one de-actuation vector
and exits at reading 2500. At the default period the two do agree. -/
theorem c5_reset_ignores_period :
    reset_sends 3 none 2000 [0, 600, 2500] = some ([], 600) ∧
    loose_all_sends 3 2000 [0, 600, 2500] = some ([all_loose 3], 2500) ∧
    reset_sends 3 none FULL_LOOSE_TIME [0, 0, 600] =
      loose_all_sends 3 FULL_LOOSE_TIME [0, 0, 600] :=
  ⟨rfl, rfl, rfl⟩

/-- C10 counterexample: with the comm worker faulted, `close()` raises the
wrapped fault out of the first `step()` inside `keep_step` (reached through
`reset`'s `loose_all()`), NOT from the `get_obs()` inside `reset` as the
claim states — the fault check inside `step` fires before `get_obs` is ever
reached. -/
theorem c10_cex :
    (close_st [0, 0, 600] commFaultSt).map (fun r => r.1) =
      some (Outcome.raised (PyErr.envFault "tb" "IOError") RaiseSite.inStep) ∧
    RaiseSite.inStep ≠ RaiseSite.inGetObs :=
  ⟨rfl, by decide⟩

/-- C10 (amended): if the comm worker's fault slot is set when `close()`
is called on a connected environment (channel empty, first clock test
inside the 500 ms default period), `close()` raises the wrapped fault after
both workers have been terminated — the raise escapes the first `step()`
inside `keep_step`, not the `get_obs()` inside `reset` — and the external
stop-pressure-generation handshake is never performed. -/
theorem c10_close_faulted (s : St) (w v : Worker) (e t : String)
    (t0 t1 : Time) (rest : List Time)
    (hw : s.comm_worker = some w) (he : w.exception = some (e, t))
    (hv : s.ctrl_worker = some v) (hq : s.actions_queue = [])
    (hclk : t1 - t0 < FULL_LOOSE_TIME) :
    close_st (t0 :: t1 :: rest) s =
      some (Outcome.raised (PyErr.envFault t e) RaiseSite.inStep,
        { s with actions_queue := [all_loose s.no_actions],
                 comm_worker := some (terminate w),
                 ctrl_worker := some (terminate v) },
        [Ev.put (all_loose s.no_actions), Ev.termComm, Ev.termCtrl]) ∧
    bothTerminated
      { s with actions_queue := [all_loose s.no_actions],
               comm_worker := some (terminate w),
               ctrl_worker := some (terminate v) } = true ∧
    Ev.stopPressuregen ∉
      [Ev.put (all_loose s.no_actions), Ev.termComm, Ev.termCtrl] := by
  obtain ⟨na, q, co, ca, cw, tw⟩ := s
  dsimp at hw hv hq
  subst hw
  subst hv
  subst hq
  obtain ⟨wt, we⟩ := w
  dsimp at he
  subst he
  refine ⟨?_, rfl, by simp⟩
  simp only [close_st, reset_st, keep_step_st, keep_step_st_go, if_pos hclk,
    step, qnext, terminate, bothTerminated, force_close]
  rfl

/-- Witness for C10 on a concrete comm-faulted state and clock trace. -/
theorem c10_close_faulted_witness :
    bothTerminated
      { commFaultSt with
        actions_queue := [all_loose commFaultSt.no_actions],
        comm_worker := some (terminate
          { terminated := false, exception := some ("IOError", "tb") }),
        ctrl_worker := some (terminate
          { terminated := false, exception := none }) } = true :=
  (c10_close_faulted commFaultSt
    { terminated := false, exception := some ("IOError", "tb") }
    { terminated := false, exception := none }
    "IOError" "tb" 0 0 [600] rfl rfl rfl rfl (by decide)).2.1

end CloneEnvModel
